import Mathlib

/-!
Verification development for Pragmatic.js (src/pragmatic-standalone.js and the
UMD build in src/unnamed/part_000).

The library is a browser state store persisted in localStorage plus declarative
DOM bindings.  We shallowly embed the parts of the code that the claims are
about:

* JavaScript values that actually flow through the store are modelled by
  `JsVal` (undefined, null, booleans, integer numbers, strings).  Host objects
  such as the PWA install-prompt event and floating point numerals are outside
  the model; no claim depends on them.
* The store (`this.data` before proxying) is an association list preserving
  insertion order, matching JavaScript object key order for string keys.
* `localStorage` is a total map from keys to optional strings.
* The reactive proxy, the `updateLocalStorage` callback, `updateDOM`,
  `bindInputs`, `navigate`, `evaluateCondition` / `evaluateSingleCondition` /
  `parseCondition` and the `validate` / `resetValidation` field-set selectors
  are translated function by function from the source.
* `JSON.parse` of an arbitrary user string and `new RegExp` of an arbitrary
  user pattern are modelled as oracle parameters (`String -> Except Unit
  (Option Store)` and `String -> Option (String -> Bool)`): the control flow
  around them (exception propagation, catch clauses) is what the claims are
  about and is embedded faithfully.
-/

/-- JavaScript values stored in the state object.  `num` models numeric values
as integers (the library itself only ever stores booleans, strings, null and
route strings; numeric state only enters through user code). -/
inductive JsVal where
  | undef
  | null
  | bool (b : Bool)
  | num (n : Int)
  | str (s : String)
deriving DecidableEq, Repr

/-- The state object: insertion-ordered key/value pairs, as a JavaScript
object with string keys. -/
abbrev Store := List (String × JsVal)

/-- Property read `target[key]`: a missing property reads as `undefined`. -/
def storeGet (st : Store) (k : String) : JsVal :=
  match st.find? (fun p => p.1 = k) with
  | some p => p.2
  | none => JsVal.undef

/-- Property write `target[key] = v`: an existing key keeps its position,
a new key is appended, as JavaScript objects do for string keys. -/
def storeSet : Store → String → JsVal → Store
  | [], k, v => [(k, v)]
  | (k', v') :: rest, k, v =>
      if k' = k then (k', v) :: rest else (k', v') :: storeSet rest k v

/-- JavaScript truthiness of a `JsVal`. -/
def truthy : JsVal → Bool
  | JsVal.undef => false
  | JsVal.null => false
  | JsVal.bool b => b
  | JsVal.num n => decide (n ≠ 0)
  | JsVal.str s => decide (s ≠ "")

/-- JavaScript ToString of a `JsVal` (the coercion applied by
`String(v)`, `regex.test(v)`, `parseFloat(v)` and DOM assignments). -/
def jsToString : JsVal → String
  | JsVal.undef => "undefined"
  | JsVal.null => "null"
  | JsVal.bool b => if b then "true" else "false"
  | JsVal.num n => toString n
  | JsVal.str s => s

/-- JSON string escaping used by `JSON.stringify` (quotes, backslashes and the
common control characters; other control characters do not occur in the model). -/
def escChar (c : Char) : String :=
  if c = '"' then "\\\""
  else if c = '\\' then "\\\\"
  else if c = '\n' then "\\n"
  else if c = '\t' then "\\t"
  else if c = '\r' then "\\r"
  else String.singleton c

def escapeJson (s : String) : String :=
  String.join (s.toList.map escChar)

/-- JSON representation of one value; `none` for `undefined`, whose
properties `JSON.stringify` omits. -/
def JsVal.jsonRepr : JsVal → Option String
  | JsVal.undef => none
  | JsVal.null => some "null"
  | JsVal.bool b => some (if b then "true" else "false")
  | JsVal.num n => some (toString n)
  | JsVal.str s => some ("\"" ++ escapeJson s ++ "\"")

/-- `JSON.stringify(this.data)`: the wholesale serialization written to
localStorage by `updateLocalStorage`. -/
def serializeStore (st : Store) : String :=
  "\x7b" ++
    String.intercalate ","
      (st.filterMap (fun p =>
        (p.2.jsonRepr).map (fun r => "\"" ++ escapeJson p.1 ++ "\":" ++ r))) ++
  "\x7d"

/-- The browser localStorage: key to optional stored string. -/
abbrev Storage := String → Option String

/-- `localStorage.setItem("state", JSON.stringify(this.data))` — the one
storage write the library performs (updateLocalStorage, both builds). -/
def persistState (st : Store) (σ : Storage) : Storage :=
  fun q => if q = "state" then some (serializeStore st) else σ q

/-- Outcome of `JSON.parse(stored)`: an exception (`.error`), a falsy result
such as `null` (`.ok none`, replaced by the empty object via the
`|| left-brace right-brace` fallback), or a parsed object (`.ok (some st)`). -/
abbrev JsonParse := String → Except Unit (Option Store)

/-- The stored-state initialization step of `StateSingleton.constructor` in
src/pragmatic-standalone.js lines 45:
`let storedData = JSON.parse(localStorage.getItem("state")) || .empty.;`
`getItem` of a missing key returns null, and `JSON.parse(null)` parses the
string "null" to null, so a missing record yields the empty object; a parse
exception propagates out of the constructor (there is no try/catch). -/
def initStoredDataStandalone (parse : JsonParse) (stored : Option String) :
    Except Unit Store :=
  match stored with
  | none => Except.ok []
  | some s =>
      match parse s with
      | Except.error e => Except.error e
      | Except.ok none => Except.ok []
      | Except.ok (some st) => Except.ok st

/-- The same step in src/unnamed/part_000 lines 36-41, where the parse is
wrapped in try/catch and a caught exception falls back to the empty object. -/
def initStoredDataUMD (parse : JsonParse) (stored : Option String) : Store :=
  match initStoredDataStandalone parse stored with
  | Except.error _ => []
  | Except.ok st => st

/-- The constructor read `localStorage.getItem("state")` followed by the
parse, as a function of the whole storage map. -/
def loadStoredData (parse : JsonParse) (σ : Storage) : Except Unit Store :=
  initStoredDataStandalone parse (σ "state")

/-- The `set` trap of the reactive proxy (window.reactive, both builds):

    set(target, key, value) .
      if (target[key] === value) return true;
      target[key] = value;
      callback(key, value);
      return true;
    .

Returns the updated target and the list of callback invocations (empty or the
single pair the callback receives).  Strict equality on the modelled value
universe coincides with `DecidableEq` (no NaN, no reference types in `JsVal`). -/
def reactiveSet (target : Store) (key : String) (v : JsVal) :
    Store × List (String × JsVal) :=
  if storeGet target key = v then (target, [])
  else (storeSet target key v, [(key, v)])

/-- A document element as seen by `updateDOM` and the `bindInputs` change
handler: tag name, `type` property, the `data-bind` attribute, and the value /
checked / textContent slots those functions read and write. -/
structure DomElem where
  tag : String
  typ : String
  dataBind : Option String
  value : String
  checked : Bool
  textContent : String
deriving DecidableEq, Repr

/-- The per-element effect of `window.updateDOM` (standalone lines 1014-1036)
on an element whose `data-bind` attribute equals the written key:

* checkbox inputs: `element.checked = Boolean(value)`
* radio inputs: `element.checked = (element.value === value)`
* other input / textarea / select: `element.value = value || ""`
* anything else: `element.textContent = value` (DOM coerces to string). -/
def applyBind (e : DomElem) (v : JsVal) : DomElem :=
  if e.tag = "INPUT" ∨ e.tag = "TEXTAREA" ∨ e.tag = "SELECT" then
    if e.typ = "checkbox" then { e with checked := truthy v }
    else if e.typ = "radio" then { e with checked := v = JsVal.str e.value }
    else { e with value := if truthy v then jsToString v else "" }
  else { e with textContent := jsToString v }

/-- `updateDOM(key, value)`: every element matching the attribute selector
`[data-bind="key"]` is updated; the animation-frame refreshes of visibility
and classes touch only display/class slots, which are outside this model. -/
def updateDOMEmbed (doc : List DomElem) (key : String) (v : JsVal) :
    List DomElem :=
  doc.map (fun e => if e.dataBind = some key then applyBind e v else e)

/-- The mutable world the state pipeline touches: the state object, the
localStorage map, and the document elements. -/
structure SysState where
  store : Store
  storage : Storage
  doc : List DomElem

/-- `StateSingleton.updateLocalStorage(key, value)` (standalone lines 79-84):
serialize the whole current data object under the fixed storage key "state",
then refresh the DOM elements bound to the changed key. -/
def updateLocalStorageEmbed (s : SysState) (key : String) (v : JsVal) :
    SysState :=
  { s with
    storage := persistState s.store s.storage
    doc := updateDOMEmbed s.doc key v }

/-- One property write `this.data[key] = v` through the reactive proxy with
the registered `updateLocalStorage` callback: the proxy skips identical
values; otherwise the callback persists and refreshes. -/
def stateWrite (s : SysState) (key : String) (v : JsVal) : SysState :=
  let r := reactiveSet s.store key v
  r.2.foldl (fun acc p => updateLocalStorageEmbed acc p.1 p.2)
    { s with store := r.1 }

/-- The document-level change listener installed by `bindInputs(data)`
(standalone lines 1072-1089): the guard `if (key)` tests the truthiness of
`getAttribute("data-bind")`, so both a missing attribute (null) and an empty
attribute (the empty string) skip the handler; otherwise the element value
(checked state for checkboxes) is written into the store through the proxy
and `updateDOM` is called directly with the same key and value. -/
def handleChange (s : SysState) (e : DomElem) : SysState :=
  match e.dataBind with
  | none => s
  | some key =>
      if key = "" then s
      else
        let cv := if e.typ = "checkbox" then JsVal.bool e.checked
                  else JsVal.str e.value
        let s1 := stateWrite s key cv
        { s1 with doc := updateDOMEmbed s1.doc key cv }

/-- A sequence of store writes, each through the proxy and callback. -/
def applyWrites (s : SysState) (ws : List (String × JsVal)) : SysState :=
  ws.foldl (fun a p => stateWrite a p.1 p.2) s

/-- The last value written to key `k` in a write sequence, if any. -/
def lastWritten : List (String × JsVal) → String → Option JsVal
  | [], _ => none
  | p :: rest, k =>
      match lastWritten rest k with
      | some v => some v
      | none => if p.1 = k then some p.2 else none

/-- Characters matched by the character class `[a-zA-Z0-9_]` in the
`parseCondition` regular expression. -/
def isKeyChar (c : Char) : Bool :=
  (c ≥ 'a' && c ≤ 'z') || (c ≥ 'A' && c ≤ 'Z') || (c ≥ '0' && c ≤ '9') || c = '_'

/-- Whitespace for the regex class `\s` (the ASCII whitespace that occurs in
attribute strings; exotic Unicode spaces are outside the model). -/
def isWsChar (c : Char) : Bool :=
  c = ' ' || c = '\t' || c = '\n' || c = '\r'

/-- Whether `pat` is a prefix of `txt`. -/
def listStartsWith : List Char → List Char → Bool
  | [], _ => true
  | _ :: _, [] => false
  | x :: xs, y :: ys => x = y && listStartsWith xs ys

/-- Whether `pat` occurs as a substring of `txt` (used for the `~=` operator
via `String.prototype.includes` and for the guard regex test for "matches"). -/
def containsSubList (pat : List Char) : List Char → Bool
  | [] => listStartsWith pat []
  | c :: cs => listStartsWith pat (c :: cs) || containsSubList pat cs

def containsSub (txt pat : String) : Bool :=
  containsSubList pat.toList txt.toList

/-- Index of the first occurrence of the two-character literal `a b` in `s`
(both separator literals of the library, `||` and `&&`, have two characters). -/
def findLit2 (a b : Char) : List Char → Option Nat
  | [] => none
  | c :: cs =>
      if listStartsWith [a, b] (c :: cs) then some 0
      else (findLit2 a b cs).map (· + 1)

theorem findLit2_lt_length (a b : Char) (s : List Char) (j : Nat)
    (h : findLit2 a b s = some j) : j < s.length := by
  induction s generalizing j with
  | nil => simp [findLit2] at h
  | cons c cs ih =>
    simp only [findLit2] at h
    by_cases hs : listStartsWith [a, b] (c :: cs) = true
    · rw [if_pos hs] at h
      injection h with h
      simp [← h]
    · rw [if_neg hs] at h
      rcases Option.map_eq_some'.mp h with ⟨j', hj', hjj⟩
      have := ih j' hj'
      simp only [List.length_cons]
      omega

theorem dropWhile_length_le (p : Char → Bool) (l : List Char) :
    (l.dropWhile p).length ≤ l.length := by
  induction l with
  | nil => simp
  | cons c cs ih =>
    by_cases hc : p c = true
    · simp only [List.dropWhile_cons, hc, if_true, List.length_cons]
      omega
    · simp [List.dropWhile_cons, hc]

/-- Remove the whitespace suffix of a character list. -/
def dropTrailingWs (l : List Char) : List Char :=
  (l.reverse.dropWhile isWsChar).reverse

/-- `String.prototype.split` with a separator regex of shape
`\s* a b \s*` (the library splits on `\s*\|\|\s*` and `\s*&&\s*`).  The
leftmost separator match starts at the whitespace run immediately preceding
the first occurrence of the literal and extends through the whitespace run
following it, since no separator character is itself whitespace. -/
def splitGo (a b : Char) : Nat → List Char → List (List Char)
  | 0, s => [s]
  | Nat.succ n, s =>
      match findLit2 a b s with
      | none => [s]
      | some j =>
          dropTrailingWs (s.take j) ::
            splitGo a b n ((s.drop (j + 2)).dropWhile isWsChar)

/-- The recursion consumes at least two characters per separator, so fuel
equal to the input length never runs out (at zero fuel the list is empty and
`findLit2` returns `none` anyway, so the fuel clause agrees). -/
def splitOnLit2 (a b : Char) (s : List Char) : List (List Char) :=
  splitGo a b s.length s

def splitOnLit2Str (a b : Char) (s : String) : List String :=
  (splitOnLit2 a b s.toList).map (fun l => String.mk l)

/-- `String.prototype.startsWith`. -/
def strStartsWith (s pre : String) : Bool :=
  listStartsWith pre.toList s.toList

/-- `String.prototype.trim` (whitespace per `isWsChar`). -/
def strTrim (s : String) : String :=
  String.mk (dropTrailingWs (s.toList.dropWhile isWsChar))

/-- Drop the first `n` characters of a string (used for the
`condition.replace(prefix, "")` calls, where the prefix is known to sit at
the start). -/
def strDrop (s : String) (n : Nat) : String :=
  String.mk (s.toList.drop n)

/-- `condition.split(/\s*\|\|\s*/)` in `evaluateCondition`. -/
def splitOr (s : String) : List String := splitOnLit2Str '|' '|' s

/-- `orPart.split(/\s*&&\s*/)` in `evaluateCondition`. -/
def splitAnd (s : String) : List String := splitOnLit2Str '&' '&' s

/-- Index of the last occurrence of `c` in `l`. -/
def lastIdxOf (c : Char) : List Char → Option Nat
  | [] => none
  | x :: xs =>
      match lastIdxOf c xs with
      | some j => some (j + 1)
      | none => if x = c then some 0 else none

/-- Match `\/.*\/|.+` at the start of `r` and return the captured value.
The first alternative requires a leading slash and matches greedily up to the
last slash on the same line; otherwise `.+` matches the remainder of the line
(the dot does not match a newline, and the overall regex is unanchored, so
trailing characters are allowed to stay unmatched). -/
def matchValCore (r : List Char) : Option (List Char) :=
  let line := r.takeWhile (fun c => c ≠ '\n')
  let slash : Option (List Char) :=
    match r with
    | '/' :: _ =>
        match lastIdxOf '/' (line.drop 1) with
        | some j => some (line.take (j + 2))
        | none => none
    | _ => none
  match slash with
  | some v => some v
  | none => if line.isEmpty then none else some line

/-- Match `\s*(\/.*\/|.+)` at the start of `rest`.  `\s*` is greedy but
backtracks, so skips are tried from the full whitespace run down to zero. -/
def matchWsValue (rest : List Char) : Option (List Char) :=
  let w := (rest.takeWhile isWsChar).length
  ((List.range (w + 1)).reverse).findSome? (fun i => matchValCore (rest.drop i))

/-- Match `\s*(==|!=|~=|>=|<=|>|<|matches)\s*(\/.*\/|.+)` at the start of `r`,
returning the operator and value captures.  No operator begins with a
whitespace character, so the first `\s*` is effectively maximal; the
alternation is tried in source order, and an operator whose value part fails
is abandoned for the next alternative. -/
def matchOpValue (r : List Char) : Option (String × List Char) :=
  let r1 := r.dropWhile isWsChar
  ["==", "!=", "~=", ">=", "<=", ">", "<", "matches"].findSome?
    (fun op =>
      if listStartsWith op.toList r1 then
        (matchWsValue (r1.drop op.toList.length)).map (fun v => (op, v))
      else none)

/-- At a position whose maximal `[a-zA-Z0-9_]+` run is `run`, try key lengths
greedily (longest first, as the regex engine backtracks) and match the
operator and value after the key. -/
def tryKeyLens (run l : List Char) : Option (String × String × String) :=
  ((List.range run.length).reverse).findSome? (fun i =>
    (matchOpValue (l.drop (i + 1))).map
      (fun p => (String.mk (run.take (i + 1)), p.1, String.mk p.2)))

/-- Leftmost match of the `parseCondition` regular expression
`([a-zA-Z0-9_]+)\s*(==|!=|~=|>=|<=|>|<|matches)\s*(\/.*\/|.+)`:
scan start positions left to right; a match can only start on a key
character. -/
def parseScan : List Char → Option (String × String × String)
  | [] => none
  | c :: cs =>
      match (if isKeyChar c then tryKeyLens ((c :: cs).takeWhile isKeyChar) (c :: cs)
             else none) with
      | some r => some r
      | none => parseScan cs

/-- `parseCondition(condition)` (standalone lines 448-451): the three captures
on success, `[condition, "", ""]` when the regex does not match. -/
def parseConditionEmbed (c : String) : String × String × String :=
  (parseScan c.toList).getD (c, "", "")

/-- The guard `/[=<>!~]|matches/.test(condition)` in
`evaluateSingleCondition`. -/
def hasCompare (c : String) : Bool :=
  c.toList.any (fun ch => ch = '=' || ch = '<' || ch = '>' || ch = '!' || ch = '~')
    || containsSub c "matches"

/-- `expectedValue.trim().replace(/^\/|\/$/g, "")`: strip one leading and one
trailing slash. -/
def stripSlashes (s : String) : String :=
  let l1 := match s.toList with
    | '/' :: rest => rest
    | l => l
  let l2 := match l1.reverse with
    | '/' :: rest => rest.reverse
    | _ => l1
  String.mk l2

def digitsVal (ds : List Char) : Int :=
  ds.foldl (fun acc d => acc * 10 + ((d.toNat - '0'.toNat : Nat) : Int)) 0

/-- JavaScript ToNumber of a string (used by loose equality `==` against a
number or boolean): trimmed empty string is 0, an integer literal is its
value, anything else is NaN (`none`).  Fractional and exponent literals are
outside the model. -/
def jsToNumber (s : String) : Option Int :=
  let l := (s.toList.dropWhile isWsChar).reverse.dropWhile isWsChar |>.reverse
  if l.isEmpty then some 0
  else
    match l with
    | '-' :: r => if !r.isEmpty && r.all (fun c => c.isDigit)
                  then some (-(digitsVal r)) else none
    | '+' :: r => if !r.isEmpty && r.all (fun c => c.isDigit)
                  then some (digitsVal r) else none
    | _ => if l.all (fun c => c.isDigit) then some (digitsVal l) else none

/-- JavaScript `parseFloat`: skip leading whitespace, optional sign, then the
longest digit prefix; NaN (`none`) if there is none.  Fractional parts are
outside the model (no claim depends on non-integer numerals). -/
def jsParseFloat (s : String) : Option Int :=
  let l := s.toList.dropWhile isWsChar
  match l with
  | '-' :: r =>
      let ds := r.takeWhile (fun c => c.isDigit)
      if ds.isEmpty then none else some (-(digitsVal ds))
  | '+' :: r =>
      let ds := r.takeWhile (fun c => c.isDigit)
      if ds.isEmpty then none else some (digitsVal ds)
  | _ =>
      let ds := l.takeWhile (fun c => c.isDigit)
      if ds.isEmpty then none else some (digitsVal ds)

/-- JavaScript loose equality `stateValue == expectedString` where the right
side is always a string (the trimmed expected value from the attribute). -/
def jsLooseEqStr (v : JsVal) (e : String) : Bool :=
  match v with
  | JsVal.str s => s = e
  | JsVal.num n =>
      match jsToNumber e with
      | some m => n = m
      | none => false
  | JsVal.bool b =>
      match jsToNumber e with
      | some m => (if b then (1 : Int) else 0) = m
      | none => false
  | JsVal.null => false
  | JsVal.undef => false

/-- Numeric comparison on `parseFloat` results; any NaN operand compares
false, as in JavaScript. -/
def floatCmp (f : Int → Int → Bool) (x y : Option Int) : Bool :=
  match x, y with
  | some a, some b => f a b
  | _, _ => false

/-- `new RegExp(pattern)` followed by `.test`: an oracle mapping the pattern
source to `none` (construction throws a SyntaxError) or a test predicate. -/
abbrev RegexCompile := String → Option (String → Bool)

/-- The log line emitted by the standalone build when a `matches` pattern
fails to compile: `console.error("Invalid regex in class-if condition:",
expectedValue, e)`. -/
def invalidRegexLog (expectedValue : String) : String :=
  "Invalid regex in class-if condition: " ++ expectedValue

/-- `evaluateSingleCondition(condition)` of src/pragmatic-standalone.js lines
375-446, as a function of the regex oracle and the store.  The result is the
boolean together with the console.error lines emitted; `.error ()` models an
uncaught exception (the route branches call String methods on the raw route
value, which throws when the route key does not hold a string). -/
def evalSingleS (rx : RegexCompile) (st : Store) (c : String) :
    Except Unit (Bool × List String) :=
  if strStartsWith c "!" then
    Except.ok (!(truthy (storeGet st (strTrim (strDrop c 1)))), [])
  else if strStartsWith c "route~=" then
    match storeGet st "route" with
    | JsVal.str r => Except.ok (strStartsWith r (strTrim (strDrop c 7)), [])
    | _ => Except.error ()
  else if strStartsWith c "route==" then
    match storeGet st "route" with
    | JsVal.str r =>
        let expected := strTrim (strDrop c 7)
        Except.ok (decide (r = expected) || strStartsWith r (expected ++ "#"), [])
    | _ => Except.error ()
  else if strStartsWith c "route!=" then
    match storeGet st "route" with
    | JsVal.str r =>
        let expected := strTrim (strDrop c 7)
        Except.ok (decide (r ≠ expected) && !(strStartsWith r (expected ++ "#")), [])
    | _ => Except.error ()
  else if strStartsWith c "route#=" then
    match storeGet st "route" with
    | JsVal.str r =>
        let expected := strTrim (strDrop c 7)
        Except.ok (containsSub r "#" && strStartsWith r (expected ++ "#"), [])
    | _ => Except.error ()
  else if !(hasCompare c) then
    Except.ok (truthy (storeGet st c), [])
  else
    let parsed := parseConditionEmbed c
    let stateValue := storeGet st (strTrim parsed.1)
    let expectedValue := parsed.2.2
    if parsed.2.1 = "matches" then
      match rx (stripSlashes (strTrim expectedValue)) with
      | none => Except.ok (false, [invalidRegexLog expectedValue])
      | some test => Except.ok (test (jsToString stateValue), [])
    else if parsed.2.1 = "==" then
      Except.ok (jsLooseEqStr stateValue (strTrim expectedValue), [])
    else if parsed.2.1 = "!=" then
      Except.ok (!(jsLooseEqStr stateValue (strTrim expectedValue)), [])
    else if parsed.2.1 = "~=" then
      Except.ok
        ((match stateValue with
          | JsVal.str s => containsSub s (strTrim expectedValue)
          | _ => false), [])
    else if parsed.2.1 = ">" then
      Except.ok (floatCmp (fun a b => decide (a > b))
        (jsParseFloat (jsToString stateValue)) (jsParseFloat expectedValue), [])
    else if parsed.2.1 = "<" then
      Except.ok (floatCmp (fun a b => decide (a < b))
        (jsParseFloat (jsToString stateValue)) (jsParseFloat expectedValue), [])
    else if parsed.2.1 = ">=" then
      Except.ok (floatCmp (fun a b => decide (a ≥ b))
        (jsParseFloat (jsToString stateValue)) (jsParseFloat expectedValue), [])
    else if parsed.2.1 = "<=" then
      Except.ok (floatCmp (fun a b => decide (a ≤ b))
        (jsParseFloat (jsToString stateValue)) (jsParseFloat expectedValue), [])
    else
      Except.ok (false, [])

/-- The boolean result of a single condition (console output dropped). -/
def evalSingleB (rx : RegexCompile) (st : Store) (c : String) :
    Except Unit Bool :=
  (evalSingleS rx st c).map (fun p => p.1)

/-- `Array.prototype.every` with a fallible predicate: short-circuits on the
first false, propagates a thrown exception. -/
def exAll (f : String → Except Unit Bool) : List String → Except Unit Bool
  | [] => Except.ok true
  | x :: xs =>
      match f x with
      | Except.error e => Except.error e
      | Except.ok true => exAll f xs
      | Except.ok false => Except.ok false

/-- `Array.prototype.some` with a fallible predicate: short-circuits on the
first true, propagates a thrown exception. -/
def exAny (f : String → Except Unit Bool) : List String → Except Unit Bool
  | [] => Except.ok false
  | x :: xs =>
      match f x with
      | Except.error e => Except.error e
      | Except.ok true => Except.ok true
      | Except.ok false => exAny f xs

/-- `evaluateCondition(condition)` (standalone lines 362-368):

    condition.split(/\s*\|\|\s*/).some(orPart =>
      orPart.split(/\s*&&\s*/).every(andPart =>
        evaluateSingleCondition(andPart.trim()))) -/
def evalCondS (rx : RegexCompile) (st : Store) (c : String) :
    Except Unit Bool :=
  exAny
    (fun orPart =>
      exAll (fun andPart => evalSingleB rx st (strTrim andPart)) (splitAnd orPart))
    (splitOr c)

/-- `String.prototype.split` on a single character (no regex involved). -/
def splitChar (sep : Char) : List Char → List (List Char)
  | [] => [[]]
  | c :: cs =>
      if c = sep then [] :: splitChar sep cs
      else
        match splitChar sep cs with
        | [] => [[c]]
        | p :: ps => (c :: p) :: ps

/-- The normalization at the top of `navigate` (standalone lines 821-826):

    const [pathname, hash] = path.split("#");
    const fullPath = hash ? pathname + "#" + hash : pathname;

Only the first two split parts are destructured, and an empty hash is falsy,
so "a#" normalizes to "a" and "a#b#c" to "a#b". -/
def normalizeNavPath (path : String) : String :=
  let parts := splitChar '#' path.toList
  let pathname := String.mk (parts.headD [])
  match parts.drop 1 with
  | [] => pathname
  | h :: _ => if h.isEmpty then pathname else pathname ++ "#" ++ String.mk h

/-- The second argument of `navigate`: a state object, a boolean replace
flag, or anything else (ignored). -/
inductive NavArg where
  | obj (l : List (String × JsVal))
  | flag (b : Bool)
  | other
deriving Repr

/-- The externally visible effects of one `navigate(path, options, replace)`
call: the key/value pairs passed to `State.set`, whether the window scrolled
to the top, and the history operation (replace?, path) if any. -/
structure NavEffects where
  stateSets : List (String × JsVal)
  scrolled : Bool
  historyOp : Option (Bool × String)
deriving DecidableEq, Repr

/-- `window.navigate` (standalone lines 821-864) given the current value of
the route key.  When the normalized path strictly equals that value the
function returns before producing any effect. -/
def navigateEmbed (routeVal : JsVal) (path : String) (options : NavArg)
    (replaceArg : Bool) : NavEffects :=
  let fullPath := normalizeNavPath path
  if routeVal = JsVal.str fullPath then
    { stateSets := [], scrolled := false, historyOp := none }
  else
    let stateToSet := match options with
      | NavArg.obj l => l
      | _ => []
    let shouldReplace := match options with
      | NavArg.obj _ => replaceArg
      | NavArg.flag b => b
      | NavArg.other => false
    let hash := (splitChar '#' path.toList).drop 1 |>.head?
    { stateSets := ("route", JsVal.str fullPath) :: stateToSet
      scrolled := match hash with
        | some h => h.isEmpty
        | none => true
      historyOp := some (shouldReplace, fullPath) }

/-- A form-relevant document element as seen by the `validate` and
`resetValidation` selectors: lowercase tag name, `group` attribute,
`data-bind` attribute, whether a `valid-if` function is attached, and the
ancestor chain (ancestor element ids and the `group` attributes occurring on
ancestors). -/
structure FormElem where
  eid : Nat
  tag : String
  group : Option String
  dataBind : Option String
  hasValidIf : Bool
  ancIds : List Nat
  ancGroups : List String
deriving DecidableEq, Repr

/-- `[...new Set(list)]`: deduplicate keeping first occurrences (DOM nodes
are distinct objects; the model identifies elements by their field values). -/
def dedupGo (seen : List FormElem) : List FormElem → List FormElem
  | [] => []
  | x :: xs =>
      if x ∈ seen then dedupGo seen xs
      else x :: dedupGo (x :: seen) xs

def dedupKeepFirst (l : List FormElem) : List FormElem := dedupGo [] l

def isFormTag (t : String) : Bool :=
  t = "input" || t = "select" || t = "textarea"

/-- The raw field list gathered by both `validate` and `resetValidation`
(standalone lines 910-914 and 964-968):

    const wrapper = document.querySelector(`[group=g]`);
    const wrapperFields = wrapper ? [...wrapper.querySelectorAll("input, select, textarea")] : [];
    const directFields = [...document.querySelectorAll(`[group=g]:is(input, select, textarea)`)];
    const extraFieldsInsideGroups = [...document.querySelectorAll(`[group=g] input, select, textarea`)];
    [...new Set([...wrapperFields, ...directFields, ...extraFieldsInsideGroups])]

The selector list in the third query scopes only `input` to the group: the
`select` and `textarea` selectors stand alone and match document-wide. -/
def gatherFields (doc : List FormElem) (g : String) : List FormElem :=
  let wrapper := doc.find? (fun e => e.group = some g)
  let wrapperFields :=
    match wrapper with
    | some w => doc.filter (fun e => isFormTag e.tag && w.eid ∈ e.ancIds)
    | none => []
  let directFields := doc.filter (fun e => e.group = some g && isFormTag e.tag)
  let extraFields := doc.filter (fun e =>
    (e.tag = "input" && g ∈ e.ancGroups) || e.tag = "select" || e.tag = "textarea")
  dedupKeepFirst (wrapperFields ++ directFields ++ extraFields)

/-- The field set `validate(groupName)` iterates over: the gathered fields
filtered to those with a `valid-if` function. -/
def validateFieldSet (doc : List FormElem) (g : String) : List FormElem :=
  (gatherFields doc g).filter (fun e => e.hasValidIf)

/-- The field set `resetValidation(groupName)` iterates over: the gathered
fields, unfiltered. -/
def resetFieldSet (doc : List FormElem) (g : String) : List FormElem :=
  gatherFields doc g

theorem storeGet_cons (a : String) (b : JsVal) (rest : Store) (q : String) :
    storeGet ((a, b) :: rest) q = if a = q then b else storeGet rest q := by
  by_cases h : a = q <;> simp [storeGet, List.find?, h]

theorem storeGet_storeSet (st : Store) (k : String) (v : JsVal) (q : String) :
    storeGet (storeSet st k v) q = if q = k then v else storeGet st q := by
  induction st with
  | nil =>
    by_cases hq : q = k
    · subst hq; simp [storeSet, storeGet, List.find?]
    · have hk : ¬ k = q := fun h => hq h.symm
      simp [storeSet, storeGet, List.find?, hq, hk]
  | cons p rest ih =>
    obtain ⟨a, b⟩ := p
    by_cases ha : a = k
    · subst ha
      rw [storeSet, if_pos rfl, storeGet_cons, storeGet_cons]
      by_cases hq : q = a
      · subst hq; simp
      · have haq : ¬ a = q := fun h => hq h.symm
        simp [haq, hq]
    · rw [storeSet, if_neg ha, storeGet_cons, storeGet_cons, ih]
      by_cases hq : a = q
      · subst hq
        simp [ha]
      · simp [hq]

theorem storeGet_reactiveSet (st : Store) (k : String) (v : JsVal) (q : String) :
    storeGet (reactiveSet st k v).1 q = if q = k then v else storeGet st q := by
  unfold reactiveSet
  by_cases h : storeGet st k = v
  · rw [if_pos h]
    by_cases hq : q = k
    · subst hq; simp [h]
    · simp [hq]
  · rw [if_neg h]
    exact storeGet_storeSet st k v q

theorem stateWrite_store (s : SysState) (k : String) (v : JsVal) :
    (stateWrite s k v).store = (reactiveSet s.store k v).1 := by
  unfold stateWrite reactiveSet
  by_cases h : storeGet s.store k = v <;>
    simp [h, updateLocalStorageEmbed]

theorem storeGet_stateWrite (s : SysState) (k : String) (v : JsVal) (q : String) :
    storeGet (stateWrite s k v).store q = if q = k then v else storeGet s.store q := by
  rw [stateWrite_store, storeGet_reactiveSet]

theorem stateWrite_consistent (s : SysState) (k : String) (v : JsVal)
    (h : s.storage "state" = some (serializeStore s.store)) :
    (stateWrite s k v).storage "state" =
      some (serializeStore (stateWrite s k v).store) := by
  unfold stateWrite reactiveSet
  by_cases hc : storeGet s.store k = v
  · simpa [hc] using h
  · simp [hc, updateLocalStorageEmbed, persistState]

theorem exAll_ok_true_iff (f : String → Except Unit Bool) (l : List String) :
    exAll f l = Except.ok true ↔ ∀ x ∈ l, f x = Except.ok true := by
  induction l with
  | nil => simp [exAll]
  | cons x xs ih =>
    simp only [exAll]
    cases hf : f x with
    | error e => simp [hf]
    | ok b => cases b <;> simp [hf, ih]

theorem exAny_ok_true_exists (f : String → Except Unit Bool) (l : List String)
    (h : exAny f l = Except.ok true) : ∃ x ∈ l, f x = Except.ok true := by
  induction l with
  | nil => simp [exAny] at h
  | cons x xs ih =>
    simp only [exAny] at h
    cases hf : f x with
    | error e => rw [hf] at h; cases h
    | ok b =>
      cases b
      · rw [hf] at h
        obtain ⟨y, hy, hfy⟩ := ih h
        exact ⟨y, List.mem_cons_of_mem _ hy, hfy⟩
      · exact ⟨x, List.mem_cons_self x xs, hf⟩

theorem exAny_ok_false_all (f : String → Except Unit Bool) (l : List String)
    (h : exAny f l = Except.ok false) : ∀ x ∈ l, f x = Except.ok false := by
  induction l with
  | nil => simp
  | cons x xs ih =>
    simp only [exAny] at h
    cases hf : f x with
    | error e => rw [hf] at h; cases h
    | ok b =>
      cases b
      · rw [hf] at h
        intro y hy
        rcases List.mem_cons.mp hy with rfl | hmem
        · exact hf
        · exact ih h y hmem
      · rw [hf] at h; cases h

theorem mem_dedupGo (l : List FormElem) (x : FormElem) (hx : x ∈ l) :
    ∀ seen : List FormElem, x ∈ seen ∨ x ∈ dedupGo seen l := by
  induction l with
  | nil => cases hx
  | cons y ys ih =>
    intro seen
    rcases List.mem_cons.mp hx with rfl | hmem
    · by_cases hy : x ∈ seen
      · exact Or.inl hy
      · right; simp [dedupGo, hy]
    · by_cases hy : y ∈ seen
      · rcases ih hmem seen with h | h
        · exact Or.inl h
        · right; simp only [dedupGo, if_pos hy]; exact h
      · rcases ih hmem (y :: seen) with h | h
        · rcases List.mem_cons.mp h with rfl | h2
          · right; simp only [dedupGo, if_neg hy]
            exact List.mem_cons_self _ _
          · exact Or.inl h2
        · right; simp only [dedupGo, if_neg hy]
          exact List.mem_cons_of_mem _ h

theorem mem_dedupKeepFirst (l : List FormElem) (x : FormElem) (hx : x ∈ l) :
    x ∈ dedupKeepFirst l := by
  rcases mem_dedupGo l x hx [] with h | h
  · cases h
  · exact h

theorem applyWrites_cons (s : SysState) (p : String × JsVal)
    (ws : List (String × JsVal)) :
    applyWrites s (p :: ws) = applyWrites (stateWrite s p.1 p.2) ws := rfl

theorem applyWrites_consistent (s : SysState) (ws : List (String × JsVal))
    (h : s.storage "state" = some (serializeStore s.store)) :
    (applyWrites s ws).storage "state" =
      some (serializeStore (applyWrites s ws).store) := by
  induction ws generalizing s with
  | nil => exact h
  | cons p rest ih => exact ih _ (stateWrite_consistent s p.1 p.2 h)

theorem lastWritten_none_get (ws : List (String × JsVal)) (k : String)
    (h : lastWritten ws k = none) (s : SysState) :
    storeGet (applyWrites s ws).store k = storeGet s.store k := by
  induction ws generalizing s with
  | nil => rfl
  | cons p rest ih =>
    simp only [lastWritten] at h
    cases hr : lastWritten rest k with
    | some v => rw [hr] at h; cases h
    | none =>
      rw [hr] at h
      by_cases hp : p.1 = k
      · rw [if_pos hp] at h; cases h
      · rw [applyWrites_cons, ih hr, storeGet_stateWrite]
        have hk : ¬ k = p.1 := fun hh => hp hh.symm
        rw [if_neg hk]

theorem lastWritten_get (ws : List (String × JsVal)) (k : String) (v : JsVal)
    (h : lastWritten ws k = some v) (s : SysState) :
    storeGet (applyWrites s ws).store k = v := by
  induction ws generalizing s with
  | nil => cases h
  | cons p rest ih =>
    simp only [lastWritten] at h
    cases hr : lastWritten rest k with
    | some w =>
      rw [hr] at h
      injection h with h
      subst h
      exact ih hr _
    | none =>
      rw [hr] at h
      by_cases hp : p.1 = k
      · rw [if_pos hp] at h
        injection h with h
        rw [applyWrites_cons, lastWritten_none_get rest k hr, storeGet_stateWrite,
          if_pos hp.symm]
        exact h
      · rw [if_neg hp] at h; cases h

/-- A regex oracle under which every pattern fails to compile. -/
def rxNone : RegexCompile := fun _ => none

/-- C1.  The claim says a malformed stored state string is discarded and the
store starts from the empty object.  The UMD build does exactly that, but the
standalone build calls JSON.parse with no try/catch, so the SyntaxError
propagates and constructing the State singleton fails: at the failing input
(stored string "not json", parse throwing) the standalone initialization
returns the error while the UMD initialization returns the empty store. -/
theorem constructor_malformed_state_divergence :
    initStoredDataStandalone (fun _ => Except.error ()) (some "not json") =
      Except.error ()
    ∧ initStoredDataUMD (fun _ => Except.error ()) (some "not json") = [] :=
  ⟨rfl, rfl⟩

/-- C2 counterexample.  Writing a value strictly equal to the current one
invokes no callback and performs no storage write: with store a maps-to "x"
and empty storage, the write a := "x" returns the callback-invocation list
empty and leaves the "state" storage slot unset, refuting the claim that
every property write triggers the callback and a storage write. -/
theorem reactive_equal_write_skips_callback :
    reactiveSet [("a", JsVal.str "x")] "a" (JsVal.str "x") =
      ([("a", JsVal.str "x")], [])
    ∧ (stateWrite ⟨[("a", JsVal.str "x")], fun _ => none, []⟩ "a"
        (JsVal.str "x")).storage "state" = none :=
  ⟨rfl, rfl⟩

/-- C2 amended.  Every property write whose value differs (by strict
equality) from the current one invokes the update callback with that key and
value, and the callback serializes the whole state and writes it under the
storage key "state". -/
theorem reactive_changed_write_invokes_callback_and_persists
    (s : SysState) (k : String) (v : JsVal) (h : storeGet s.store k ≠ v) :
    reactiveSet s.store k v = (storeSet s.store k v, [(k, v)])
    ∧ (stateWrite s k v).storage "state" =
        some (serializeStore (storeSet s.store k v)) := by
  constructor
  · simp [reactiveSet, h]
  · simp [stateWrite, reactiveSet, h, updateLocalStorageEmbed, persistState]

/-- C2 witness: the amended theorem applied at an empty store and the write
a := 1. -/
theorem reactive_changed_write_witness :
    (stateWrite ⟨[], fun _ => none, []⟩ "a" (JsVal.num 1)).storage "state" =
      some (serializeStore (storeSet [] "a" (JsVal.num 1))) :=
  (reactive_changed_write_invokes_callback_and_persists
    ⟨[], fun _ => none, []⟩ "a" (JsVal.num 1) (by decide)).2

/-- C3 counterexample.  The condition "== 5" contains a comparison character
but the parseCondition regex does not match it, so it is malformed in the
claim sense; evaluating it yields false without throwing, but the emitted
console log list is empty, refuting the claim that the error is logged. -/
theorem malformed_comparison_not_logged :
    hasCompare "== 5" = true
    ∧ parseScan ("== 5".toList) = none
    ∧ evalSingleS rxNone [] "== 5" = Except.ok (false, []) :=
  ⟨rfl, rfl, rfl⟩

/-- C3 amended.  A malformed single condition never throws and yields false:
if its comparison cannot be parsed into key, operator and value it evaluates
to false silently (no log), and if it parses to a "matches" comparison whose
pattern fails to compile it evaluates to false and logs the invalid-regex
error (the standalone build; the UMD build catches the same error without
logging). -/
theorem malformed_condition_false_no_throw
    (rx : RegexCompile) (st : Store) (c : String)
    (h1 : strStartsWith c "!" = false)
    (h2 : strStartsWith c "route~=" = false)
    (h3 : strStartsWith c "route==" = false)
    (h4 : strStartsWith c "route!=" = false)
    (h5 : strStartsWith c "route#=" = false)
    (h6 : hasCompare c = true) :
    ((parseConditionEmbed c).2.1 = "" →
        evalSingleS rx st c = Except.ok (false, []))
    ∧ (∀ k v, parseConditionEmbed c = (k, "matches", v) →
        rx (stripSlashes (strTrim v)) = none →
        evalSingleS rx st c = Except.ok (false, [invalidRegexLog v])) := by
  constructor
  · intro hp
    simp [evalSingleS, h1, h2, h3, h4, h5, h6, hp]
  · intro k v hp hrx
    simp [evalSingleS, h1, h2, h3, h4, h5, h6, hp, hrx]

/-- C3 witness: the amended theorem applied to the unparseable comparison
"== 5" and to "x matches (bad" under an oracle rejecting every pattern. -/
theorem malformed_condition_false_no_throw_witness :
    evalSingleS rxNone [] "== 5" = Except.ok (false, [])
    ∧ evalSingleS rxNone [] "x matches (bad" =
        Except.ok (false, [invalidRegexLog "(bad"]) :=
  ⟨(malformed_condition_false_no_throw rxNone [] "== 5"
      rfl rfl rfl rfl rfl rfl).1 rfl,
   (malformed_condition_false_no_throw rxNone [] "x matches (bad"
      rfl rfl rfl rfl rfl rfl).2 "x" "(bad" rfl rfl⟩

/-- C4.  Starting from a storage snapshot consistent with the store (which
every effective write establishes, since the callback serializes the whole
object), any sequence of writes keeps the stored record equal to the
serialization of the store, and the store holds, for every key written in the
sequence, the last value written to it; a write of an identical value changes
neither side, so the equation is preserved by every write. -/
theorem sequential_writes_last_write_wins (s : SysState)
    (hinv : s.storage "state" = some (serializeStore s.store))
    (ws : List (String × JsVal)) :
    (applyWrites s ws).storage "state" =
        some (serializeStore (applyWrites s ws).store)
    ∧ ∀ k v, lastWritten ws k = some v →
        storeGet (applyWrites s ws).store k = v :=
  ⟨applyWrites_consistent s ws hinv,
   fun k v h => lastWritten_get ws k v h s⟩

def c4Init : SysState :=
  ⟨[("a", JsVal.str "x")],
   persistState [("a", JsVal.str "x")] (fun _ => none), []⟩

def c4Writes : List (String × JsVal) :=
  [("a", JsVal.str "y"), ("b", JsVal.bool true), ("a", JsVal.str "z")]

/-- C4 witness: a three-write sequence with two writes to the same key ends
with the last value in the store and the storage holding the serialization
of the final store. -/
theorem sequential_writes_last_write_wins_witness :
    storeGet (applyWrites c4Init c4Writes).store "a" = JsVal.str "z"
    ∧ (applyWrites c4Init c4Writes).storage "state" =
        some (serializeStore (applyWrites c4Init c4Writes).store) :=
  ⟨(sequential_writes_last_write_wins c4Init rfl c4Writes).2 "a"
      (JsVal.str "z") rfl,
   (sequential_writes_last_write_wins c4Init rfl c4Writes).1⟩

/-- C5.  Whenever `evaluateCondition` returns a boolean (it can only throw
via a route comparison against a non-string route value, which the
constructor rules out by always storing the route as a string), that boolean
is true if and only if some part of the `||`-split has every condition of its
`&&`-split evaluate to true — the split structure of the code makes `&&`
bind tighter than `||`. -/
theorem evaluateCondition_or_and_semantics (rx : RegexCompile) (st : Store)
    (c : String) (b : Bool) (h : evalCondS rx st c = Except.ok b) :
    b = true ↔ ∃ orPart ∈ splitOr c, ∀ andPart ∈ splitAnd orPart,
        evalSingleB rx st (strTrim andPart) = Except.ok true := by
  constructor
  · intro hb
    subst hb
    obtain ⟨x, hx, hfx⟩ := exAny_ok_true_exists _ _ h
    exact ⟨x, hx, (exAll_ok_true_iff _ _).mp hfx⟩
  · rintro ⟨x, hx, hall⟩
    cases b with
    | true => rfl
    | false =>
      have hfalse := exAny_ok_false_all _ _ h x hx
      rw [(exAll_ok_true_iff _ _).mpr hall] at hfalse
      cases hfalse

/-- C5 witness: the semantics theorem applied to the condition "a || b" in a
store where a holds "1", whose evaluation returns true. -/
theorem evaluateCondition_or_and_semantics_witness :
    true = true ↔ ∃ orPart ∈ splitOr "a || b", ∀ andPart ∈ splitAnd orPart,
        evalSingleB rxNone [("a", JsVal.str "1")] (strTrim andPart) =
          Except.ok true :=
  evaluateCondition_or_and_semantics rxNone [("a", JsVal.str "1")]
    "a || b" true rfl

def c6Elem : DomElem := ⟨"INPUT", "text", some "k", "y", false, ""⟩

def c6Sys : SysState := ⟨[("k", JsVal.str "x")], fun _ => none, [c6Elem]⟩

/-- C6 counterexample.  A store write of a value equal to the current one
skips the callback, so bound elements are not refreshed: with the store
holding k maps-to "x" and a text input bound to k showing "y", the write
k := "x" leaves the document unchanged and the element still shows "y",
refuting the claim that every store write updates every bound element. -/
theorem noop_store_write_leaves_dom_stale :
    (stateWrite c6Sys "k" (JsVal.str "x")).doc = [c6Elem]
    ∧ c6Elem.dataBind = some "k" ∧ c6Elem.value = "y"
    ∧ c6Elem.tag = "INPUT" :=
  ⟨rfl, rfl, rfl, rfl⟩

/-- C6 amended.  A change event on a form element with a non-empty
`data-bind` attribute writes the current element value (checked state for
checkboxes) into the store under the bound key (the `if (key)` truthiness
guard skips missing and empty attributes), and a store write whose value
differs from the current one updates every document element bound to that key
via `updateDOM` (equal-value writes are skipped by the proxy). -/
theorem data_bind_two_way_sync (s : SysState) (e : DomElem) (key : String)
    (v : JsVal) (hb : e.dataBind = some key) (hk : key ≠ "")
    (hch : storeGet s.store key ≠ v) :
    storeGet (handleChange s e).store key =
      (if e.typ = "checkbox" then JsVal.bool e.checked else JsVal.str e.value)
    ∧ (stateWrite s key v).doc =
        s.doc.map (fun x => if x.dataBind = some key then applyBind x v else x) := by
  constructor
  · simp only [handleChange, hb, if_neg hk]
    rw [storeGet_stateWrite]
    simp
  · simp [stateWrite, reactiveSet, hch, updateLocalStorageEmbed, updateDOMEmbed]

/-- C6 witness: the amended theorem applied to the text input bound to k: the
change event stores "y", and the effective write k := "z" rewrites the
document through `applyBind`. -/
theorem data_bind_two_way_sync_witness :
    storeGet (handleChange c6Sys c6Elem).store "k" = JsVal.str "y"
    ∧ (stateWrite c6Sys "k" (JsVal.str "z")).doc =
        [applyBind c6Elem (JsVal.str "z")] := by
  have h := data_bind_two_way_sync c6Sys c6Elem "k" (JsVal.str "z") rfl
    (by decide) (by decide)
  exact ⟨by rw [h.1]; rfl, by rw [h.2]; rfl⟩

/-- C7.  All persistence uses the single storage key "state": the constructor
read depends only on the "state" slot of storage, and the persistence write
leaves every other storage key unchanged. -/
theorem storage_single_state_key (parse : JsonParse) (σ σ2 : Storage)
    (st : Store) (k : String)
    (hread : σ "state" = σ2 "state") (hk : k ≠ "state") :
    loadStoredData parse σ = loadStoredData parse σ2
    ∧ persistState st σ k = σ k := by
  constructor
  · unfold loadStoredData
    rw [hread]
  · unfold persistState
    rw [if_neg hk]

/-- C7 witness: two storages agreeing on "state" load identically, and a
persist leaves the key "other" untouched. -/
theorem storage_single_state_key_witness :
    loadStoredData (fun _ => Except.error ()) (fun _ => none) =
      loadStoredData (fun _ => Except.error ())
        (fun q => if q = "state" then none else some "junk")
    ∧ persistState [] (fun _ => none) "other" = none :=
  storage_single_state_key (fun _ => Except.error ()) (fun _ => none)
    (fun q => if q = "state" then none else some "junk") [] "other"
    rfl (by decide)

/-- C8.  Writing a key to a value strictly equal to its current value is a
no-op: the proxy returns before invoking the callback, so the store, the
storage and the document are all left exactly as they were. -/
theorem reactive_equal_write_is_noop (s : SysState) (k : String) (v : JsVal)
    (h : storeGet s.store k = v) :
    reactiveSet s.store k v = (s.store, []) ∧ stateWrite s k v = s := by
  constructor
  · simp [reactiveSet, h]
  · simp [stateWrite, reactiveSet, h]

/-- C8 witness: rewriting a := 2 over a store already holding 2 leaves the
whole system state unchanged. -/
theorem reactive_equal_write_is_noop_witness :
    stateWrite ⟨[("a", JsVal.num 2)], fun _ => none, []⟩ "a" (JsVal.num 2) =
      ⟨[("a", JsVal.num 2)], fun _ => none, []⟩ :=
  (reactive_equal_write_is_noop ⟨[("a", JsVal.num 2)], fun _ => none, []⟩
    "a" (JsVal.num 2) (by decide)).2

/-- C9.  When the path normalizes to the string currently held by the route
key, `navigate` returns early: no state key is set, no scroll happens, and no
history entry is pushed or replaced. -/
theorem navigate_same_route_noop (routeVal : JsVal) (path : String)
    (options : NavArg) (replaceArg : Bool)
    (h : routeVal = JsVal.str (normalizeNavPath path)) :
    navigateEmbed routeVal path options replaceArg =
      { stateSets := [], scrolled := false, historyOp := none } := by
  simp [navigateEmbed, h]

/-- C9 witness: navigating to "/home#" (which normalizes to "/home", the
current route) produces no effect. -/
theorem navigate_same_route_noop_witness :
    navigateEmbed (JsVal.str "/home") "/home#" NavArg.other false =
      { stateSets := [], scrolled := false, historyOp := none } :=
  navigate_same_route_noop (JsVal.str "/home") "/home#" NavArg.other false rfl

/-- C10.  For every group name, the field set gathered by `validate` and
`resetValidation` includes every select and every textarea element anywhere
in the document — the comma-separated selector scopes only `input` to the
group — restricted, for `validate`, to elements carrying a valid-if
function. -/
theorem validation_field_set_covers_selects_textareas
    (doc : List FormElem) (g : String) (e : FormElem) (he : e ∈ doc)
    (ht : e.tag = "select" ∨ e.tag = "textarea") :
    e ∈ resetFieldSet doc g
    ∧ (e.hasValidIf = true → e ∈ validateFieldSet doc g) := by
  have hgather : e ∈ gatherFields doc g := by
    simp only [gatherFields]
    apply mem_dedupKeepFirst
    apply List.mem_append.mpr
    right
    rw [List.mem_filter]
    refine ⟨he, ?_⟩
    rcases ht with h | h <;> simp [h]
  exact ⟨hgather, fun hv => List.mem_filter.mpr ⟨hgather, by simp [hv]⟩⟩

def c10Elem : FormElem := ⟨0, "select", none, none, true, [], []⟩

/-- C10 witness: a select element with a valid-if function and no group
attribute anywhere in its ancestry is in both field sets of group "g". -/
theorem validation_field_set_covers_selects_textareas_witness :
    c10Elem ∈ resetFieldSet [c10Elem] "g"
    ∧ c10Elem ∈ validateFieldSet [c10Elem] "g" := by
  have h := validation_field_set_covers_selects_textareas [c10Elem] "g"
    c10Elem (by simp) (Or.inl rfl)
  exact ⟨h.1, h.2 rfl⟩
